import Mathlib

/-!
Verification development for the KPFASTSIMUSFD wheel–rail contact library.

The definitions below are a shallow embedding, over the real numbers, of the
Python sources:
  * `src/utils/geometry.py`   (curvatures, grid discretization),
  * `src/kp/kp.py`            (Kik–Piotrowski normal contact solver),
  * `src/kp/mkp.py`           (Modified Kik–Piotrowski solver),
  * `src/fastsim/fastsim.py`  (FastSim tangential solver),
  * `src/fastsim/fastrip.py`  (FaStrip tangential solver).

Floating point is idealised as exact real arithmetic.  Where numpy produces
NaN (square roots or fractional powers of negative numbers) the embedding
uses `Option ℝ` with `none` standing for NaN, so that NaN propagation through
comparisons (which are `False` on NaN, hence leave NaN in place through the
clamping assignments) is modelled faithfully.
-/

open Classical

namespace KPModel

/-- One entry of `np.linspace lo hi n`: `lo + (hi - lo) * i / (n - 1)`. -/
noncomputable def linspace (lo hi : ℝ) (n i : ℕ) : ℝ :=
  lo + (hi - lo) * i / ((n : ℝ) - 1)

/-- Embedding of `calculate_curvatures` from `src/utils/geometry.py`.
Returns the pair (longitudinal curvature, lateral curvature).  Note that the
second component of the yawed branch is computed from the already updated
longitudinal curvature, exactly as the Python assignments do. -/
noncomputable def calculate_curvatures (wheel_radius rail_radius yaw_angle : ℝ) : ℝ × ℝ :=
  let longitudinal_curvature := 1.0 / wheel_radius
  let lateral_curvature := 1.0 / rail_radius
  if 1e-6 < |yaw_angle| then
    let cos_yaw := Real.cos yaw_angle
    let sin_yaw := Real.sin yaw_angle
    let longitudinal_mod := longitudinal_curvature * cos_yaw ^ 2 + lateral_curvature * sin_yaw ^ 2
    let lateral_mod := lateral_curvature * cos_yaw ^ 2 + longitudinal_mod * sin_yaw ^ 2
    (longitudinal_mod, lateral_mod)
  else
    (longitudinal_curvature, lateral_curvature)

/-- The equivalent Young's modulus computed in `KikPiotrowski.__init__`. -/
noncomputable def equivalent_youngs_modulus (wE wNu rE rNu : ℝ) : ℝ :=
  1.0 / ((1.0 - wNu ^ 2) / wE + (1.0 - rNu ^ 2) / rE)

/-- Constructor parameters of `KikPiotrowski`. -/
structure KPConfig where
  wheel_radius : ℝ
  rail_radius : ℝ
  wheel_youngs_modulus : ℝ
  rail_youngs_modulus : ℝ
  wheel_poisson : ℝ
  rail_poisson : ℝ
  discretization : ℕ

/-- `self.equivalent_youngs_modulus` of a `KikPiotrowski` instance. -/
noncomputable def KPConfig.E (c : KPConfig) : ℝ :=
  equivalent_youngs_modulus c.wheel_youngs_modulus c.wheel_poisson
    c.rail_youngs_modulus c.rail_poisson

/-- Embedding of `KikPiotrowski.calculate_penetration`. -/
noncomputable def calculate_penetration (c : KPConfig) (normal_force : ℝ) : ℝ :=
  let curv := calculate_curvatures c.wheel_radius c.rail_radius 0.0
  let a := (3 * normal_force / (4 * c.E * (curv.1 + curv.2))) ^ ((1 : ℝ) / 3)
  a ^ 2 * (curv.1 + curv.2) / 3

/-- Embedding of `KikPiotrowski.calculate_normal_force`. -/
noncomputable def calculate_normal_force (c : KPConfig) (penetration : ℝ) : ℝ :=
  let curv := calculate_curvatures c.wheel_radius c.rail_radius 0.0
  let a := Real.sqrt (3 * penetration / (curv.1 + curv.2))
  4 * c.E * (curv.1 + curv.2) * a ^ 3 / 3

/-- The ellipse term `1 - (x/a)² - (y/b)²` at grid point (row j, column i);
it is negative exactly at the grid points strictly outside the ellipse. -/
noncomputable def ellipse_term (a b : ℝ) (n j i : ℕ) : ℝ :=
  1 - (linspace (-a) a n i / a) ^ 2 - (linspace (-b) b n j / b) ^ 2

/-- Pressure of the base KP solver at grid point (row `j`, column `i`):
the semi-ellipsoidal profile with the negative ellipse terms clamped to zero
before the square root, then negative pressures clamped to zero
(`KikPiotrowski.calculate_contact_patch`, lines 99–107). -/
noncomputable def kp_pressure (a b maxp : ℝ) (n : ℕ) (j i : ℕ) : ℝ :=
  let et := ellipse_term a b n j i
  let clamped := if et < 0 then 0 else et
  let p := maxp * Real.sqrt clamped
  if p < 0 then 0 else p

/-- The contact-patch record returned by `KikPiotrowski.calculate_contact_patch`
(the redundant flattened coordinate list is omitted; the pressure distribution
is kept as a function of the grid indices). -/
structure ContactPatch where
  a : ℝ
  b : ℝ
  area : ℝ
  max_pressure : ℝ
  mean_pressure : ℝ
  pressure_distribution : ℕ → ℕ → ℝ

/-- Semi-axis a of the contact patch: the closed-form cube-root relation used
identically by `KikPiotrowski.calculate_contact_patch` and
`ModifiedKikPiotrowski.calculate_contact_patch`. -/
noncomputable def kp_a_value (c : KPConfig) (normal_force yaw_angle : ℝ) : ℝ :=
  let curv := calculate_curvatures c.wheel_radius c.rail_radius yaw_angle
  (3 * normal_force / (4 * c.E * (curv.1 + curv.2))) ^ ((1 : ℝ) / 3)

/-- Semi-axis b: a scaled by the square root of the curvature quotient. -/
noncomputable def kp_b_value (c : KPConfig) (normal_force yaw_angle : ℝ) : ℝ :=
  let curv := calculate_curvatures c.wheel_radius c.rail_radius yaw_angle
  kp_a_value c normal_force yaw_angle * Real.sqrt (curv.1 / curv.2)

/-- The semi-axes quotient `max(a/b, b/a)` tested by the MKP solver. -/
noncomputable def axes_quot_value (c : KPConfig) (normal_force yaw_angle : ℝ) : ℝ :=
  max (kp_a_value c normal_force yaw_angle / kp_b_value c normal_force yaw_angle)
    (kp_b_value c normal_force yaw_angle / kp_a_value c normal_force yaw_angle)

/-- Embedding of `KikPiotrowski.calculate_contact_patch`. -/
noncomputable def kp_calculate_contact_patch (c : KPConfig)
    (normal_force yaw_angle lateral_displacement : ℝ) : ContactPatch :=
  let a := kp_a_value c normal_force yaw_angle
  let b := kp_b_value c normal_force yaw_angle
  let area := Real.pi * a * b
  let maxp := 1.5 * normal_force / area
  { a := a
    b := b
    area := area
    max_pressure := maxp
    mean_pressure := normal_force / area
    pressure_distribution := kp_pressure a b maxp c.discretization }

/-- The record returned by `KikPiotrowski.solve_contact_problem` on success. -/
structure ContactSolution where
  penetration : ℝ
  normal_force : ℝ
  contact_patch : ContactPatch

/-- Embedding of `KikPiotrowski.solve_contact_problem`; the `ValueError` raised
for an invalid argument combination becomes the `Except.error` case. -/
noncomputable def solve_contact_problem (c : KPConfig) (penetration normal_force : Option ℝ)
    (yaw_angle lateral_displacement : ℝ) : Except String ContactSolution :=
  match penetration, normal_force with
  | none, none =>
      .error "Vous devez fournir soit penetration soit normal_force, mais pas les deux."
  | some _, some _ =>
      .error "Vous devez fournir soit penetration soit normal_force, mais pas les deux."
  | some p, none =>
      let nf := calculate_normal_force c p
      .ok { penetration := p
            normal_force := nf
            contact_patch := kp_calculate_contact_patch c nf yaw_angle lateral_displacement }
  | none, some nf =>
      .ok { penetration := calculate_penetration c nf
            normal_force := nf
            contact_patch := kp_calculate_contact_patch c nf yaw_angle lateral_displacement }

/-- Penetration component of a contact solution, `none` on the error case. -/
noncomputable def solution_penetration : Except String ContactSolution → Option ℝ
  | .ok r => some r.penetration
  | .error _ => none

/- ### Basic curvature facts -/

theorem calculate_curvatures_zero (wr rr : ℝ) :
    calculate_curvatures wr rr 0.0 = (1 / wr, 1 / rr) := by
  unfold calculate_curvatures
  norm_num

theorem calculate_curvatures_small (wr rr yaw : ℝ) (h : ¬ 1e-6 < |yaw|) :
    calculate_curvatures wr rr yaw = (1 / wr, 1 / rr) := by
  unfold calculate_curvatures
  rw [if_neg h]
  norm_num

theorem calculate_curvatures_large (wr rr yaw : ℝ) (h : 1e-6 < |yaw|) :
    calculate_curvatures wr rr yaw =
      (1 / wr * Real.cos yaw ^ 2 + 1 / rr * Real.sin yaw ^ 2,
       1 / rr * Real.cos yaw ^ 2 +
         (1 / wr * Real.cos yaw ^ 2 + 1 / rr * Real.sin yaw ^ 2) * Real.sin yaw ^ 2) := by
  unfold calculate_curvatures
  rw [if_pos h]
  norm_num

theorem pi_div_four_threshold : (1e-6 : ℝ) < |Real.pi / 4| := by
  have h := Real.pi_gt_three
  rw [abs_of_pos (by linarith)]
  linarith

theorem cos_sq_pi_div_four : Real.cos (Real.pi / 4) ^ 2 = 1 / 2 := by
  rw [Real.cos_pi_div_four, div_pow, Real.sq_sqrt] <;> norm_num

theorem sin_sq_pi_div_four : Real.sin (Real.pi / 4) ^ 2 = 1 / 2 := by
  rw [Real.sin_pi_div_four, div_pow, Real.sq_sqrt] <;> norm_num

/- ### C3: penetration/normal-force round trip for the base solver -/

/-- C3: for the base Kik–Piotrowski solver with positive radii, positive
equivalent modulus and positive normal force,
`calculate_normal_force (calculate_penetration F) = F` exactly: the two
methods are closed-form algebraic inverses, with the semi-axis re-derived
from whichever quantity is given and penetration = a²·(curvature sum)/3. -/
theorem C3_penetration_force_inverse (c : KPConfig) (F : ℝ)
    (hwr : 0 < c.wheel_radius) (hrr : 0 < c.rail_radius)
    (hE : 0 < c.E) (hF : 0 < F) :
    calculate_normal_force c (calculate_penetration c F) = F := by
  have hcurv := calculate_curvatures_zero c.wheel_radius c.rail_radius
  simp only [calculate_normal_force, calculate_penetration, hcurv]
  have hκ : (0:ℝ) < 1 / c.wheel_radius + 1 / c.rail_radius := by positivity
  generalize hκdef : (1 / c.wheel_radius + 1 / c.rail_radius : ℝ) = κ at hκ ⊢
  have hx : (0:ℝ) < 3 * F / (4 * c.E * κ) := by positivity
  generalize hxdef : (3 * F / (4 * c.E * κ) : ℝ) = x at hx ⊢
  have hA0 : (0:ℝ) ≤ x ^ ((1:ℝ)/3) := Real.rpow_nonneg hx.le _
  have hA3 : (x ^ ((1:ℝ)/3)) ^ (3:ℕ) = x := by
    rw [← Real.rpow_natCast (x ^ ((1:ℝ)/3)) 3, ← Real.rpow_mul hx.le]
    norm_num
  have h1 : 3 * ((x ^ ((1:ℝ)/3)) ^ 2 * κ / 3) / κ = (x ^ ((1:ℝ)/3)) ^ 2 := by
    field_simp
  rw [h1, Real.sqrt_sq hA0, hA3]
  rw [← hxdef]
  field_simp

/-- Closed witness for C3 at wheel radius 1, rail radius 1, moduli 2 with zero
Poisson ratios (equivalent modulus 1) and normal force 1. -/
theorem C3_penetration_force_inverse_witness :
    calculate_normal_force
        { wheel_radius := 1, rail_radius := 1, wheel_youngs_modulus := 2,
          rail_youngs_modulus := 2, wheel_poisson := 0, rail_poisson := 0,
          discretization := 50 }
        (calculate_penetration
          { wheel_radius := 1, rail_radius := 1, wheel_youngs_modulus := 2,
            rail_youngs_modulus := 2, wheel_poisson := 0, rail_poisson := 0,
            discretization := 50 } 1) = 1 :=
  C3_penetration_force_inverse _ 1 (by norm_num) (by norm_num)
    (by simp [KPConfig.E, equivalent_youngs_modulus]; norm_num) (by norm_num)

/- ### C5: yaw blending of the curvatures -/

/-- C5 counterexample: at wheel radius 1, rail radius 1/2, yaw π/4, the
lateral curvature returned by the code is 7/4, not the symmetric blend
(1/rail)·cos²ψ + (1/wheel)·sin²ψ = 3/2 claimed from the unmodified pair:
the code reuses the already-updated longitudinal curvature in the lateral
blend. -/
theorem C5_counterexample :
    (calculate_curvatures 1 (1/2) (Real.pi / 4)).2 ≠
      (1 / (1/2 : ℝ)) * Real.cos (Real.pi / 4) ^ 2 +
        (1 / (1 : ℝ)) * Real.sin (Real.pi / 4) ^ 2 := by
  rw [calculate_curvatures_large 1 (1/2) (Real.pi / 4) pi_div_four_threshold]
  simp only [cos_sq_pi_div_four, sin_sq_pi_div_four]
  norm_num

/-- C5 (amended): for |ψ| > 1e-6 `calculate_curvatures` returns
longitudinal' = (1/wheel)·cos²ψ + (1/rail)·sin²ψ and
lateral' = (1/rail)·cos²ψ + longitudinal'·sin²ψ, where the lateral blend
reuses the already-updated longitudinal curvature rather than the original
one; for |ψ| ≤ 1e-6 the unblended pair (1/wheel, 1/rail) is returned. -/
theorem C5_amended_blend (wr rr yaw : ℝ) :
    (1e-6 < |yaw| →
      calculate_curvatures wr rr yaw =
        (1 / wr * Real.cos yaw ^ 2 + 1 / rr * Real.sin yaw ^ 2,
         1 / rr * Real.cos yaw ^ 2 +
           (1 / wr * Real.cos yaw ^ 2 + 1 / rr * Real.sin yaw ^ 2) * Real.sin yaw ^ 2)) ∧
    (¬ 1e-6 < |yaw| → calculate_curvatures wr rr yaw = (1 / wr, 1 / rr)) :=
  ⟨calculate_curvatures_large wr rr yaw, calculate_curvatures_small wr rr yaw⟩

/-- Closed witness for the amended C5 at wheel radius 1, rail radius 1/2,
yaw π/4 (which exceeds the 1e-6 threshold). -/
theorem C5_amended_blend_witness :
    calculate_curvatures 1 (1/2) (Real.pi / 4) =
      (1 / 1 * Real.cos (Real.pi / 4) ^ 2 + 1 / (1/2) * Real.sin (Real.pi / 4) ^ 2,
       1 / (1/2) * Real.cos (Real.pi / 4) ^ 2 +
         (1 / 1 * Real.cos (Real.pi / 4) ^ 2 + 1 / (1/2) * Real.sin (Real.pi / 4) ^ 2) *
           Real.sin (Real.pi / 4) ^ 2) :=
  (C5_amended_blend 1 (1/2) (Real.pi / 4)).1 pi_div_four_threshold

/- ### C7: input contract of solve_contact_problem -/

/-- C7: `solve_contact_problem` signals an error exactly when both or neither
of penetration and normal force are supplied; when exactly one is supplied
it returns a complete record with penetration, normal force and contact
patch, computing the missing quantity from the supplied one. -/
theorem C7_solve_contact_problem_contract (c : KPConfig) (pen nf : Option ℝ)
    (yaw lat : ℝ) :
    ((∃ msg, solve_contact_problem c pen nf yaw lat = .error msg) ↔
      ((pen = none ∧ nf = none) ∨ (pen ≠ none ∧ nf ≠ none))) ∧
    (∀ p, pen = some p → nf = none →
      solve_contact_problem c pen nf yaw lat =
        .ok { penetration := p
              normal_force := calculate_normal_force c p
              contact_patch :=
                kp_calculate_contact_patch c (calculate_normal_force c p) yaw lat }) ∧
    (∀ f, pen = none → nf = some f →
      solve_contact_problem c pen nf yaw lat =
        .ok { penetration := calculate_penetration c f
              normal_force := f
              contact_patch := kp_calculate_contact_patch c f yaw lat }) := by
  rcases pen with _ | p <;> rcases nf with _ | f <;>
    simp [solve_contact_problem]

/-- Closed witness for C7: supplying only a normal force yields the complete
success record. -/
theorem C7_solve_contact_problem_contract_witness :
    solve_contact_problem
        { wheel_radius := 1, rail_radius := 1, wheel_youngs_modulus := 2,
          rail_youngs_modulus := 2, wheel_poisson := 0, rail_poisson := 0,
          discretization := 50 } none (some 1) 0 0 =
      .ok { penetration :=
              calculate_penetration
                { wheel_radius := 1, rail_radius := 1, wheel_youngs_modulus := 2,
                  rail_youngs_modulus := 2, wheel_poisson := 0, rail_poisson := 0,
                  discretization := 50 } 1
            normal_force := 1
            contact_patch :=
              kp_calculate_contact_patch
                { wheel_radius := 1, rail_radius := 1, wheel_youngs_modulus := 2,
                  rail_youngs_modulus := 2, wheel_poisson := 0, rail_poisson := 0,
                  discretization := 50 } 1 0 0 } :=
  (C7_solve_contact_problem_contract _ none (some 1) 0 0).2.2 1 rfl rfl

/- ### C10: penetration is independent of the yaw angle -/

/-- Concrete KP configuration with wheel radius 1, rail radius 1/2 and
equivalent Young's modulus 1, used to exhibit yaw dependence of the patch. -/
noncomputable def cfgC10 : KPConfig :=
  { wheel_radius := 1, rail_radius := 1/2, wheel_youngs_modulus := 2,
    rail_youngs_modulus := 2, wheel_poisson := 0, rail_poisson := 0,
    discretization := 50 }

theorem cfgC10_E : cfgC10.E = 1 := by
  simp [cfgC10, KPConfig.E, equivalent_youngs_modulus]
  norm_num

theorem curv_cfgC10_pi_div_four :
    calculate_curvatures 1 (1/2) (Real.pi / 4) = (3/2, 7/4) := by
  rw [calculate_curvatures_large 1 (1/2) (Real.pi / 4) pi_div_four_threshold]
  simp only [cos_sq_pi_div_four, sin_sq_pi_div_four]
  norm_num

/-- C10: in `solve_contact_problem` with a given normal force, the returned
penetration is the same for any two yaw angles (`calculate_penetration`
always evaluates the curvatures at zero yaw), even though the contact patch
in the same result genuinely depends on the yaw angle (exhibited at a
concrete configuration where the semi-axis a differs between yaw 0 and π/4). -/
theorem C10_penetration_yaw_independent :
    (∀ (c : KPConfig) (F yaw1 yaw2 lat1 lat2 : ℝ),
      solution_penetration (solve_contact_problem c none (some F) yaw1 lat1) =
        solution_penetration (solve_contact_problem c none (some F) yaw2 lat2)) ∧
    (kp_calculate_contact_patch cfgC10 4 (Real.pi / 4) 0).a ≠
      (kp_calculate_contact_patch cfgC10 4 0 0).a := by
  constructor
  · intro c F y1 y2 l1 l2
    simp [solve_contact_problem, solution_penetration]
  · have h0 : calculate_curvatures (1:ℝ) (1/2) 0 = (1, 2) := by
      rw [calculate_curvatures_small 1 (1/2) 0 (by norm_num)]; norm_num
    have hwr : cfgC10.wheel_radius = 1 := rfl
    have hrr : cfgC10.rail_radius = 1/2 := rfl
    have ha4 : (kp_calculate_contact_patch cfgC10 4 (Real.pi / 4) 0).a =
        ((12 : ℝ)/13) ^ ((1:ℝ)/3) := by
      simp only [kp_calculate_contact_patch, kp_a_value, cfgC10_E, hwr, hrr,
        curv_cfgC10_pi_div_four]
      norm_num
    have ha0 : (kp_calculate_contact_patch cfgC10 4 0 0).a = 1 := by
      simp only [kp_calculate_contact_patch, kp_a_value, cfgC10_E, hwr, hrr, h0]
      norm_num
    rw [ha4, ha0]
    exact ne_of_lt (Real.rpow_lt_one (by norm_num) (by norm_num) (by norm_num))

/- ### Tangential solvers: grid, flexibility coefficients, FastSim march -/

/-- The boolean inclusion mask of `discretize_contact_patch`:
grid point (row `j`, column `i`) lies inside the ellipse. -/
noncomputable def ellipse_mask (a b : ℝ) (n : ℕ) (j i : ℕ) : Prop :=
  (linspace (-a) a n i / a) ^ 2 + (linspace (-b) b n j / b) ^ 2 ≤ 1

/-- Kalker coefficient C11 of `FastSim.calculate_flexibility_coefficients`. -/
noncomputable def kalker_C11 (a b : ℝ) : ℝ :=
  let g := max (a / b) (b / a)
  if a ≥ b then 2.39 + 0.338 * g else 2.39 + 0.338 / g

/-- Kalker coefficient C22 of `FastSim.calculate_flexibility_coefficients`. -/
noncomputable def kalker_C22 (a b : ℝ) : ℝ :=
  let g := max (a / b) (b / a)
  if a ≥ b then 2.39 + 0.517 / g else 2.39 + 0.517 * g

/-- Kalker coefficient C23 of `FastSim.calculate_flexibility_coefficients`. -/
noncomputable def kalker_C23 (a b : ℝ) : ℝ :=
  let g := max (a / b) (b / a)
  if a ≥ b then 0.442 + 0.165 / g else 0.442 + 0.165 * g

/-- Longitudinal flexibility coefficient L1 = C11 / (4 G a). -/
noncomputable def fastsim_L1 (G a b : ℝ) : ℝ := kalker_C11 a b / (4 * G * a)

/-- Lateral flexibility coefficient L2 = C22 / (4 G b). -/
noncomputable def fastsim_L2 (G a b : ℝ) : ℝ := kalker_C22 a b / (4 * G * b)

/-- Spin flexibility coefficient L3 = C23 / (4 G √(a b)). -/
noncomputable def fastsim_L3 (G a b : ℝ) : ℝ :=
  kalker_C23 a b / (4 * G * Real.sqrt (a * b))

/-- The three creepages passed to the tangential solvers. -/
structure Creepages where
  longitudinal : ℝ
  lateral : ℝ
  spin : ℝ

/-- Everything `FastSim.solve_tangential_problem` reads: the contact patch
semi-axes and (reshaped, row-major) pressure distribution, the creepages,
and the solver configuration. -/
structure TangentialInput where
  a : ℝ
  b : ℝ
  pressure : ℕ → ℕ → ℝ
  creep : Creepages
  shear_modulus : ℝ
  friction_coefficient : ℝ
  n : ℕ

/-- The pressure array assembled on the grid: the reshaped distribution on
masked points, zero elsewhere (`pressure[mask] = ...` on a zero array). -/
noncomputable def TangentialInput.gridPressure (t : TangentialInput) (j i : ℕ) : ℝ :=
  if ellipse_mask t.a t.b t.n j i then t.pressure j i else 0

/-- Coulomb traction bound: friction coefficient × local pressure. -/
noncomputable def TangentialInput.tractionBound (t : TangentialInput) (j i : ℕ) : ℝ :=
  t.friction_coefficient * t.gridPressure j i

/-- Rolling-direction grid step `dx = 2 a / discretization`. -/
noncomputable def TangentialInput.dx (t : TangentialInput) : ℝ := 2 * t.a / t.n

/-- Euclidean norm of a shear-stress vector. -/
noncomputable def norm2 (v : ℝ × ℝ) : ℝ := Real.sqrt (v.1 ^ 2 + v.2 ^ 2)

/-- Coulomb saturation step: if the trial stress norm exceeds the traction
bound, both components are scaled down to the bound, otherwise the trial
stress is kept (the adhesion branch). -/
noncomputable def saturate (bound : ℝ) (s : ℝ × ℝ) : ℝ × ℝ :=
  if bound < norm2 s then (s.1 * (bound / norm2 s), s.2 * (bound / norm2 s)) else s

/-- Trial shear stress at one grid point from the upstream stress:
elastic displacement = upstream stress × flexibility, total slip = rigid
slip − elastic/dx, trial stress = slip × shear modulus × dx. -/
noncomputable def point_trial (t : TangentialInput) (L1 L2 : ℝ) (upstream : ℝ × ℝ)
    (rigid_x rigid_y : ℝ) : ℝ × ℝ :=
  ((rigid_x - upstream.1 * L1 / t.dx) * t.shear_modulus * t.dx,
   (rigid_y - upstream.2 * L2 / t.dx) * t.shear_modulus * t.dx)

/-- Rigid slip in the rolling direction at row `j`:
longitudinal creepage − spin × y. -/
noncomputable def fs_rigid_x (t : TangentialInput) (j : ℕ) : ℝ :=
  t.creep.longitudinal - t.creep.spin * linspace (-t.b) t.b t.n j

/-- Rigid slip in the lateral direction at column `i`:
lateral creepage + spin × x. -/
noncomputable def fs_rigid_y (t : TangentialInput) (i : ℕ) : ℝ :=
  t.creep.lateral + t.creep.spin * linspace (-t.a) t.a t.n i

/-- The FastSim marching recurrence: the shear stress stored at grid point
(row `j`, column `i`) after `FastSim.solve_tangential_problem` finishes.
The march runs from the leading column `n-1` down to column 0, so the value
at column `i` only depends on the value at column `i+1` (the upstream
neighbour in the rolling direction); unmasked points keep the zero
initialisation. -/
noncomputable def fastsim_stress (t : TangentialInput) (j i : ℕ) : ℝ × ℝ :=
  if ellipse_mask t.a t.b t.n j i then
    saturate (t.tractionBound j i)
      (point_trial t (fastsim_L1 t.shear_modulus t.a t.b) (fastsim_L2 t.shear_modulus t.a t.b)
        (if h : i + 1 < t.n ∧ ellipse_mask t.a t.b t.n j (i + 1) then fastsim_stress t j (i + 1)
         else (0, 0))
        (fs_rigid_x t j) (fs_rigid_y t i))
  else (0, 0)
termination_by t.n - i
decreasing_by omega

/-- The pre-saturation trial stress of the FastSim march at a grid point. -/
noncomputable def fastsim_trial (t : TangentialInput) (j i : ℕ) : ℝ × ℝ :=
  point_trial t (fastsim_L1 t.shear_modulus t.a t.b) (fastsim_L2 t.shear_modulus t.a t.b)
    (if i + 1 < t.n ∧ ellipse_mask t.a t.b t.n j (i + 1) then fastsim_stress t j (i + 1)
     else (0, 0))
    (fs_rigid_x t j) (fs_rigid_y t i)

theorem fastsim_stress_eq (t : TangentialInput) (j i : ℕ) :
    fastsim_stress t j i =
      if ellipse_mask t.a t.b t.n j i then
        saturate (t.tractionBound j i) (fastsim_trial t j i)
      else (0, 0) := by
  rw [fastsim_stress, fastsim_trial]
  simp only [dite_eq_ite]

/-- A grid point counted as adhering by the FastSim march: it is masked and
its trial stress norm does not exceed the traction bound. -/
noncomputable def fastsim_adhering (t : TangentialInput) (j i : ℕ) : Prop :=
  ellipse_mask t.a t.b t.n j i ∧
    ¬ t.tractionBound j i < norm2 (fastsim_trial t j i)

/-- The n×n index grid. -/
noncomputable def gridPoints (n : ℕ) : Finset (ℕ × ℕ) :=
  Finset.range n ×ˢ Finset.range n

/-- The masked grid points (`np.sum(mask)` counts them). -/
noncomputable def masked_points (t : TangentialInput) : Finset (ℕ × ℕ) :=
  (gridPoints t.n).filter fun p => ellipse_mask t.a t.b t.n p.1 p.2

/-- `total_points` of the FastSim solve. -/
noncomputable def fastsim_total_points (t : TangentialInput) : ℕ :=
  (masked_points t).card

/-- `adhesion_points` of the FastSim solve. -/
noncomputable def fastsim_adhesion_points (t : TangentialInput) : ℕ :=
  ((gridPoints t.n).filter fun p => fastsim_adhering t p.1 p.2).card

/-- `adhesion_area` of the FastSim solve: adhering points / masked points,
zero when the mask is empty. -/
noncomputable def fastsim_adhesion_area (t : TangentialInput) : ℝ :=
  if 0 < fastsim_total_points t then
    (fastsim_adhesion_points t : ℝ) / (fastsim_total_points t : ℝ)
  else 0

/- ### FaStrip: strip decomposition, march, linear-theory correction -/

/-- Input of `FaStrip.solve_tangential_problem`: the FastSim input plus the
number of lateral strips. -/
structure StripInput extends TangentialInput where
  num_strips : ℕ

/-- Strip edge `k` of `np.linspace(-b, b, num_strips + 1)`. -/
noncomputable def strip_edge (t : StripInput) (k : ℕ) : ℝ :=
  linspace (-t.b) t.b (t.num_strips + 1) k

/-- Strip width `2 b / num_strips`. -/
noncomputable def strip_width (t : StripInput) : ℝ := 2 * t.b / t.num_strips

/-- Strip-theory longitudinal flexibility coefficient of
`FaStrip.calculate_strip_flexibility_coefficients`. -/
noncomputable def strip_L1 (t : StripInput) : ℝ :=
  Real.pi / (4 * t.shear_modulus * strip_width t) * (1 + 1.15 * (strip_width t / (2 * t.a)))

/-- Strip-theory lateral flexibility coefficient. -/
noncomputable def strip_L2 (t : StripInput) : ℝ :=
  Real.pi / (4 * t.shear_modulus * strip_width t) * (1 + 1.15 / (strip_width t / (2 * t.a)))

/-- Strip-theory spin flexibility coefficient. -/
noncomputable def strip_L3 (t : StripInput) : ℝ :=
  Real.pi / (4 * t.shear_modulus * strip_width t) *
    (0.5 * Real.sqrt (strip_width t / (2 * t.a)))

/-- Row `j` falls into strip `k`: its y coordinate satisfies
`edge k ≤ y < edge (k+1)` (the half-open test of the strip mask). -/
noncomputable def row_in_strip (t : StripInput) (k j : ℕ) : Prop :=
  strip_edge t k ≤ linspace (-t.b) t.b t.n j ∧
    linspace (-t.b) t.b t.n j < strip_edge t (k + 1)

/-- Row `j` is visited by some strip of the FaStrip loop.  Rows whose y
coordinate lies in no half-open strip interval (in particular the row at
y = b, since the last strip tests `y < b` strictly) are never processed. -/
noncomputable def row_processed (t : StripInput) (j : ℕ) : Prop :=
  ∃ k, k < t.num_strips ∧ row_in_strip t k j

/-- Centre y coordinate of the strip containing row `j` (rows in no strip get
an arbitrary value; they are never processed). -/
noncomputable def strip_center (t : StripInput) (j : ℕ) : ℝ :=
  if h : ∃ k, k < t.num_strips ∧ row_in_strip t k j then
    (strip_edge t h.choose + strip_edge t (h.choose + 1)) / 2
  else 0

/-- The FaStrip marching recurrence: shear stress stored at grid point
(row `j`, column `i`) after `FaStrip.solve_tangential_problem` finishes.
Each strip marches its rows from the leading to the trailing column with the
strip-theory flexibility coefficients; the spin contribution to the rolling
rigid slip uses the strip's centre y while the lateral one uses the point's
own x; masked rows lying in no strip are never visited and keep zero. -/
noncomputable def fastrip_stress (t : StripInput) (j i : ℕ) : ℝ × ℝ :=
  if ellipse_mask t.a t.b t.n j i ∧ row_processed t j then
    saturate (t.tractionBound j i)
      (point_trial t.toTangentialInput (strip_L1 t) (strip_L2 t)
        (if h : i + 1 < t.n ∧ ellipse_mask t.a t.b t.n j (i + 1) then fastrip_stress t j (i + 1)
         else (0, 0))
        (t.creep.longitudinal - t.creep.spin * strip_center t j)
        (t.creep.lateral + t.creep.spin * linspace (-t.a) t.a t.n i))
  else (0, 0)
termination_by t.n - i
decreasing_by omega

/-- The pre-saturation trial stress of the FaStrip march at a grid point. -/
noncomputable def fastrip_trial (t : StripInput) (j i : ℕ) : ℝ × ℝ :=
  point_trial t.toTangentialInput (strip_L1 t) (strip_L2 t)
    (if i + 1 < t.n ∧ ellipse_mask t.a t.b t.n j (i + 1) then fastrip_stress t j (i + 1)
     else (0, 0))
    (t.creep.longitudinal - t.creep.spin * strip_center t j)
    (t.creep.lateral + t.creep.spin * linspace (-t.a) t.a t.n i)

theorem fastrip_stress_eq (t : StripInput) (j i : ℕ) :
    fastrip_stress t j i =
      if ellipse_mask t.a t.b t.n j i ∧ row_processed t j then
        saturate (t.tractionBound j i) (fastrip_trial t j i)
      else (0, 0) := by
  rw [fastrip_stress, fastrip_trial]
  simp only [dite_eq_ite]

/-- A grid point counted as adhering by the FaStrip march: it is masked, its
row is visited by a strip, and its trial stress norm does not exceed the
traction bound. -/
noncomputable def fastrip_adhering (t : StripInput) (j i : ℕ) : Prop :=
  (ellipse_mask t.a t.b t.n j i ∧ row_processed t j) ∧
    ¬ t.tractionBound j i < norm2 (fastrip_trial t j i)

/-- `total_points` of the FaStrip solve (same mask count as FastSim). -/
noncomputable def fastrip_total_points (t : StripInput) : ℕ :=
  (masked_points t.toTangentialInput).card

/-- `adhesion_points` of the FaStrip solve. -/
noncomputable def fastrip_adhesion_points (t : StripInput) : ℕ :=
  ((gridPoints t.n).filter fun p => fastrip_adhering t p.1 p.2).card

/-- `adhesion_area` of the FaStrip solve. -/
noncomputable def fastrip_adhesion_area (t : StripInput) : ℝ :=
  if 0 < fastrip_total_points t then
    (fastrip_adhesion_points t : ℝ) / (fastrip_total_points t : ℝ)
  else 0

/-- Raw (pre-correction) longitudinal resultant force: area-weighted sum of
the shear stresses over the masked points. -/
noncomputable def fastrip_Fx_raw (t : StripInput) : ℝ :=
  (∑ p ∈ masked_points t.toTangentialInput, (fastrip_stress t p.1 p.2).1) * (t.dx * t.dx)

/-- Raw (pre-correction) lateral resultant force. -/
noncomputable def fastrip_Fy_raw (t : StripInput) : ℝ :=
  (∑ p ∈ masked_points t.toTangentialInput, (fastrip_stress t p.1 p.2).2) * (t.dx * t.dx)

/-- Kalker linear-theory longitudinal force computed from the full-ellipse
flexibility coefficients. -/
noncomputable def fastrip_Fx_linear (t : StripInput) : ℝ :=
  -t.shear_modulus * t.a * t.b * t.creep.longitudinal / fastsim_L1 t.shear_modulus t.a t.b

/-- Kalker linear-theory lateral force. -/
noncomputable def fastrip_Fy_linear (t : StripInput) : ℝ :=
  -t.shear_modulus * t.a * t.b * t.creep.lateral / fastsim_L2 t.shear_modulus t.a t.b

/-- `np.clip(x, lo, hi)`. -/
noncomputable def np_clip (x lo hi : ℝ) : ℝ := min hi (max lo x)

/-- The clipped longitudinal correction factor of the low-creepage blend. -/
noncomputable def fastrip_correction_x (t : StripInput) : ℝ :=
  np_clip (if 1e-10 < |fastrip_Fx_raw t| then fastrip_Fx_linear t / fastrip_Fx_raw t else 1)
    0.8 1.2

/-- The clipped lateral correction factor of the low-creepage blend. -/
noncomputable def fastrip_correction_y (t : StripInput) : ℝ :=
  np_clip (if 1e-10 < |fastrip_Fy_raw t| then fastrip_Fy_linear t / fastrip_Fy_raw t else 1)
    0.8 1.2

/-- The longitudinal tangential force returned by
`FaStrip.solve_tangential_problem`: the raw sum, multiplied by the clipped
correction factor only when both creepage magnitudes are below 1e-4. -/
noncomputable def fastrip_Fx (t : StripInput) : ℝ :=
  if |t.creep.longitudinal| < 1e-4 ∧ |t.creep.lateral| < 1e-4 then
    fastrip_Fx_raw t * fastrip_correction_x t
  else fastrip_Fx_raw t

/-- The lateral tangential force returned by `FaStrip.solve_tangential_problem`. -/
noncomputable def fastrip_Fy (t : StripInput) : ℝ :=
  if |t.creep.longitudinal| < 1e-4 ∧ |t.creep.lateral| < 1e-4 then
    fastrip_Fy_raw t * fastrip_correction_y t
  else fastrip_Fy_raw t

/- ### Saturation lemmas -/

theorem norm2_nonneg (v : ℝ × ℝ) : 0 ≤ norm2 v := Real.sqrt_nonneg _

theorem norm2_zero_pair : norm2 ((0 : ℝ), (0 : ℝ)) = 0 := by
  simp [norm2]

theorem norm2_scale (c : ℝ) (v : ℝ × ℝ) :
    norm2 (v.1 * c, v.2 * c) = |c| * norm2 v := by
  unfold norm2
  have h : (v.1 * c) ^ 2 + (v.2 * c) ^ 2 = c ^ 2 * (v.1 ^ 2 + v.2 ^ 2) := by ring
  rw [h, Real.sqrt_mul (sq_nonneg c), Real.sqrt_sq_eq_abs]

theorem saturate_of_not_lt {bound : ℝ} {s : ℝ × ℝ} (h : ¬ bound < norm2 s) :
    saturate bound s = s := if_neg h

theorem norm2_saturate_sliding {bound : ℝ} (hb : 0 ≤ bound) {s : ℝ × ℝ}
    (h : bound < norm2 s) : norm2 (saturate bound s) = bound := by
  unfold saturate
  rw [if_pos h, norm2_scale, abs_of_nonneg (div_nonneg hb (norm2_nonneg s))]
  have hpos : 0 < norm2 s := lt_of_le_of_lt hb h
  field_simp

theorem norm2_saturate_le {bound : ℝ} (hb : 0 ≤ bound) (s : ℝ × ℝ) :
    norm2 (saturate bound s) ≤ bound := by
  by_cases h : bound < norm2 s
  · exact le_of_eq (norm2_saturate_sliding hb h)
  · rw [saturate_of_not_lt h]
    exact not_lt.mp h

theorem saturate_zero_pair {bound : ℝ} (hb : 0 ≤ bound) :
    saturate bound ((0 : ℝ), (0 : ℝ)) = (0, 0) := by
  unfold saturate
  rw [if_neg]
  rw [norm2_zero_pair]
  exact not_lt.mpr hb

theorem gridPressure_nonneg (t : TangentialInput) (hp : ∀ j i, 0 ≤ t.pressure j i)
    (j i : ℕ) : 0 ≤ t.gridPressure j i := by
  unfold TangentialInput.gridPressure
  split
  · exact hp j i
  · exact le_refl 0

theorem tractionBound_nonneg (t : TangentialInput) (hμ : 0 ≤ t.friction_coefficient)
    (hp : ∀ j i, 0 ≤ t.pressure j i) (j i : ℕ) : 0 ≤ t.tractionBound j i :=
  mul_nonneg hμ (gridPressure_nonneg t hp j i)

theorem tractionBound_masked (t : TangentialInput) {j i : ℕ}
    (h : ellipse_mask t.a t.b t.n j i) :
    t.tractionBound j i = t.friction_coefficient * t.pressure j i := by
  unfold TangentialInput.tractionBound TangentialInput.gridPressure
  rw [if_pos h]

/- ### C1: Coulomb bound after solving -/

/-- C1 counterexample input: unit semi-axes, identically zero (hence
non-negative) pressure, zero creepages, friction coefficient 0.3,
discretization 3. -/
noncomputable def tIn0 : TangentialInput :=
  { a := 1, b := 1, pressure := fun _ _ => 0,
    creep := { longitudinal := 0, lateral := 0, spin := 0 },
    shear_modulus := 1, friction_coefficient := 3/10, n := 3 }

/-- Concrete FaStrip input: like `tIn0` but with discretization 4 (so no
masked grid row lies exactly at y = b) and a single strip. -/
noncomputable def tsIn0 : StripInput :=
  { toTangentialInput := { tIn0 with n := 4 }, num_strips := 1 }

/-- Under zero creepages and a non-negative pressure field the FastSim march
never produces a non-zero stress: every trial stress and every stored stress
is (0, 0). -/
theorem fastsim_stress_zero_creep (t : TangentialInput)
    (h1 : t.creep.longitudinal = 0) (h2 : t.creep.lateral = 0) (h3 : t.creep.spin = 0)
    (hμ : 0 ≤ t.friction_coefficient) (hp : ∀ j i, 0 ≤ t.pressure j i) :
    ∀ j i, fastsim_trial t j i = (0, 0) ∧ fastsim_stress t j i = (0, 0) := by
  have key : ∀ m j i, t.n - i ≤ m →
      fastsim_trial t j i = (0, 0) ∧ fastsim_stress t j i = (0, 0) := by
    intro m
    induction m with
    | zero =>
      intro j i hle
      have hup : ¬ (i + 1 < t.n ∧ ellipse_mask t.a t.b t.n j (i + 1)) := by
        rintro ⟨hlt, -⟩
        omega
      have htrial : fastsim_trial t j i = (0, 0) := by
        unfold fastsim_trial
        rw [if_neg hup]
        simp [point_trial, fs_rigid_x, fs_rigid_y, h1, h2, h3]
      refine ⟨htrial, ?_⟩
      rw [fastsim_stress_eq, htrial]
      split
      · exact saturate_zero_pair (tractionBound_nonneg t hμ hp j i)
      · rfl
    | succ m ih =>
      intro j i hle
      have htrial : fastsim_trial t j i = (0, 0) := by
        unfold fastsim_trial
        have hup : (if i + 1 < t.n ∧ ellipse_mask t.a t.b t.n j (i + 1) then
            fastsim_stress t j (i + 1) else (0, 0)) = (0, 0) := by
          split
          · exact (ih j (i + 1) (by omega)).2
          · rfl
        rw [hup]
        simp [point_trial, fs_rigid_x, fs_rigid_y, h1, h2, h3]
      refine ⟨htrial, ?_⟩
      rw [fastsim_stress_eq, htrial]
      split
      · exact saturate_zero_pair (tractionBound_nonneg t hμ hp j i)
      · rfl
  intro j i
  exact key (t.n - i) j i le_rfl

/-- Under zero creepages and a non-negative pressure field the FaStrip march
is identically zero as well. -/
theorem fastrip_stress_zero_creep (t : StripInput)
    (h1 : t.creep.longitudinal = 0) (h2 : t.creep.lateral = 0) (h3 : t.creep.spin = 0)
    (hμ : 0 ≤ t.friction_coefficient) (hp : ∀ j i, 0 ≤ t.pressure j i) :
    ∀ j i, fastrip_trial t j i = (0, 0) ∧ fastrip_stress t j i = (0, 0) := by
  have key : ∀ m j i, t.n - i ≤ m →
      fastrip_trial t j i = (0, 0) ∧ fastrip_stress t j i = (0, 0) := by
    intro m
    induction m with
    | zero =>
      intro j i hle
      have hup : ¬ (i + 1 < t.n ∧ ellipse_mask t.a t.b t.n j (i + 1)) := by
        rintro ⟨hlt, -⟩
        omega
      have htrial : fastrip_trial t j i = (0, 0) := by
        unfold fastrip_trial
        rw [if_neg hup]
        simp [point_trial, h1, h2, h3]
      refine ⟨htrial, ?_⟩
      rw [fastrip_stress_eq, htrial]
      split
      · exact saturate_zero_pair (tractionBound_nonneg t.toTangentialInput hμ hp j i)
      · rfl
    | succ m ih =>
      intro j i hle
      have htrial : fastrip_trial t j i = (0, 0) := by
        unfold fastrip_trial
        have hup : (if i + 1 < t.n ∧ ellipse_mask t.a t.b t.n j (i + 1) then
            fastrip_stress t j (i + 1) else (0, 0)) = (0, 0) := by
          split
          · exact (ih j (i + 1) (by omega)).2
          · rfl
        rw [hup]
        simp [point_trial, h1, h2, h3]
      refine ⟨htrial, ?_⟩
      rw [fastrip_stress_eq, htrial]
      split
      · exact saturate_zero_pair (tractionBound_nonneg t.toTangentialInput hμ hp j i)
      · rfl
  intro j i
  exact key (t.n - i) j i le_rfl

/-- C1 counterexample: with unit semi-axes, the identically zero (and hence
non-negative) pressure distribution and zero creepages, the masked centre
point (1, 1) is counted as adhering by FastSim yet its shear-stress norm
EQUALS friction × pressure (both are zero), so the claimed strict
inequality at adhering points fails. -/
theorem C1_counterexample :
    (∀ j i, 0 ≤ tIn0.pressure j i) ∧ 0 < tIn0.a ∧ 0 < tIn0.b ∧
    ellipse_mask tIn0.a tIn0.b tIn0.n 1 1 ∧ fastsim_adhering tIn0 1 1 ∧
    ¬ norm2 (fastsim_stress tIn0 1 1) <
        tIn0.friction_coefficient * tIn0.pressure 1 1 := by
  have hz := fastsim_stress_zero_creep tIn0 rfl rfl rfl
    (by norm_num [tIn0]) (fun j i => by norm_num [tIn0])
  have hmask : ellipse_mask tIn0.a tIn0.b tIn0.n 1 1 := by
    norm_num [tIn0, ellipse_mask, linspace]
  refine ⟨fun j i => by norm_num [tIn0], by norm_num [tIn0], by norm_num [tIn0],
    hmask, ⟨hmask, ?_⟩, ?_⟩
  · rw [(hz 1 1).1, norm2_zero_pair]
    exact not_lt.mpr (tractionBound_nonneg tIn0 (by norm_num [tIn0])
      (fun j i => by norm_num [tIn0]) 1 1)
  · rw [(hz 1 1).2, norm2_zero_pair]
    norm_num [tIn0]

/-- C1 (amended): after either tangential solve, at every masked grid point
the shear-stress norm is at most friction coefficient × local pressure, and
at every sliding point (trial norm strictly above the bound) it equals the
bound exactly.  At adhering points the inequality need not be strict: it
degenerates to equality where the trial stress norm exactly meets the bound
(for instance at masked zero-pressure boundary points under zero creepage). -/
theorem C1_coulomb_bound (t : TangentialInput) (ts : StripInput)
    (hμ : 0 ≤ t.friction_coefficient) (hp : ∀ j i, 0 ≤ t.pressure j i)
    (hμs : 0 ≤ ts.friction_coefficient) (hps : ∀ j i, 0 ≤ ts.pressure j i) :
    (∀ j i, ellipse_mask t.a t.b t.n j i →
      norm2 (fastsim_stress t j i) ≤ t.friction_coefficient * t.pressure j i ∧
        (t.tractionBound j i < norm2 (fastsim_trial t j i) →
          norm2 (fastsim_stress t j i) = t.friction_coefficient * t.pressure j i)) ∧
    (∀ j i, ellipse_mask ts.a ts.b ts.n j i →
      norm2 (fastrip_stress ts j i) ≤ ts.friction_coefficient * ts.pressure j i ∧
        (row_processed ts j → ts.tractionBound j i < norm2 (fastrip_trial ts j i) →
          norm2 (fastrip_stress ts j i) = ts.friction_coefficient * ts.pressure j i)) := by
  constructor
  · intro j i hm
    have hb : 0 ≤ t.tractionBound j i := tractionBound_nonneg t hμ hp j i
    have hbp := tractionBound_masked t hm
    rw [fastsim_stress_eq, if_pos hm]
    exact ⟨hbp ▸ norm2_saturate_le hb _,
      fun hs => hbp ▸ norm2_saturate_sliding hb hs⟩
  · intro j i hm
    have hb : 0 ≤ ts.tractionBound j i :=
      tractionBound_nonneg ts.toTangentialInput hμs hps j i
    have hbp := tractionBound_masked ts.toTangentialInput hm
    rw [fastrip_stress_eq]
    by_cases hproc : row_processed ts j
    · rw [if_pos ⟨hm, hproc⟩]
      exact ⟨hbp ▸ norm2_saturate_le hb _,
        fun _ hs => hbp ▸ norm2_saturate_sliding hb hs⟩
    · rw [if_neg (by rintro ⟨-, h⟩; exact hproc h)]
      rw [norm2_zero_pair]
      exact ⟨hbp ▸ hb, fun h => absurd h hproc⟩

/-- Closed witness for the amended C1 at the concrete inputs `tIn0`, `tsIn0`:
at the masked centre points the stored stress norms obey the Coulomb bound. -/
theorem C1_coulomb_bound_witness :
    norm2 (fastsim_stress tIn0 1 1) ≤ tIn0.friction_coefficient * tIn0.pressure 1 1 ∧
    norm2 (fastrip_stress tsIn0 1 1) ≤ tsIn0.friction_coefficient * tsIn0.pressure 1 1 :=
  ⟨((C1_coulomb_bound tIn0 tsIn0 (by norm_num [tIn0]) (fun j i => by norm_num [tIn0])
      (by norm_num [tsIn0, tIn0]) (fun j i => by norm_num [tsIn0, tIn0])).1 1 1
      (by norm_num [tIn0, ellipse_mask, linspace])).1,
   ((C1_coulomb_bound tIn0 tsIn0 (by norm_num [tIn0]) (fun j i => by norm_num [tIn0])
      (by norm_num [tsIn0, tIn0]) (fun j i => by norm_num [tsIn0, tIn0])).2 1 1
      (by norm_num [tsIn0, tIn0, ellipse_mask, linspace])).1⟩

/- ### C6: adhesion-area fraction -/

theorem fastsim_adhesion_subset (t : TangentialInput) :
    ((gridPoints t.n).filter fun p => fastsim_adhering t p.1 p.2) ⊆ masked_points t := by
  intro p hp
  rw [Finset.mem_filter] at hp
  unfold masked_points
  rw [Finset.mem_filter]
  exact ⟨hp.1, hp.2.1⟩

theorem fastrip_adhesion_subset (t : StripInput) :
    ((gridPoints t.n).filter fun p => fastrip_adhering t p.1 p.2) ⊆
      masked_points t.toTangentialInput := by
  intro p hp
  rw [Finset.mem_filter] at hp
  unfold masked_points
  rw [Finset.mem_filter]
  exact ⟨hp.1, hp.2.1.1⟩

/-- C6 counterexample input: unit semi-axes with discretization 2, zero
creepages; the four grid points are the corners of the bounding rectangle,
all strictly outside the ellipse, so the mask is empty. -/
noncomputable def tEmpty : TangentialInput := { tIn0 with n := 2 }

/-- C6 counterexample: at `tEmpty` all three creepages are zero, yet
`adhesion_area` is 0, not 1: the empty mask makes the solver take its
`total_points = 0` fallback. -/
theorem C6_counterexample :
    tEmpty.creep.longitudinal = 0 ∧ tEmpty.creep.lateral = 0 ∧ tEmpty.creep.spin = 0 ∧
    fastsim_adhesion_area tEmpty = 0 := by
  refine ⟨rfl, rfl, rfl, ?_⟩
  have htot : fastsim_total_points tEmpty = 0 := by
    unfold fastsim_total_points masked_points
    rw [Finset.card_eq_zero, Finset.filter_eq_empty_iff]
    rintro ⟨j, i⟩ hmem
    rw [gridPoints, Finset.mem_product, Finset.mem_range, Finset.mem_range] at hmem
    obtain ⟨hj, hi⟩ := hmem
    have hj2 : j < 2 := by simpa [tEmpty, tIn0] using hj
    have hi2 : i < 2 := by simpa [tEmpty, tIn0] using hi
    show ¬ ellipse_mask tEmpty.a tEmpty.b tEmpty.n j i
    interval_cases j <;> interval_cases i <;>
      norm_num [tEmpty, tIn0, ellipse_mask, linspace]
  unfold fastsim_adhesion_area
  rw [htot]
  norm_num

/-- C6 (amended): the adhesion-area fraction of both tangential solvers
always lies in [0, 1].  With all three creepages zero (and a non-negative
pressure field) every visited masked point adheres, so FastSim returns
exactly 1 whenever the mask is non-empty; FaStrip returns exactly 1 whenever
additionally every masked row is visited by some strip — masked rows in no
half-open strip interval (such as the row at y = b) are never visited, and
an empty mask makes either solver return 0 instead of 1. -/
theorem C6_adhesion_area (t : TangentialInput) (ts : StripInput) :
    (0 ≤ fastsim_adhesion_area t ∧ fastsim_adhesion_area t ≤ 1) ∧
    (0 ≤ fastrip_adhesion_area ts ∧ fastrip_adhesion_area ts ≤ 1) ∧
    (t.creep.longitudinal = 0 → t.creep.lateral = 0 → t.creep.spin = 0 →
      0 ≤ t.friction_coefficient → (∀ j i, 0 ≤ t.pressure j i) →
      0 < fastsim_total_points t → fastsim_adhesion_area t = 1) ∧
    (ts.creep.longitudinal = 0 → ts.creep.lateral = 0 → ts.creep.spin = 0 →
      0 ≤ ts.friction_coefficient → (∀ j i, 0 ≤ ts.pressure j i) →
      0 < fastrip_total_points ts →
      (∀ p ∈ masked_points ts.toTangentialInput, row_processed ts p.1) →
      fastrip_adhesion_area ts = 1) := by
  refine ⟨?_, ?_, ?_, ?_⟩
  · unfold fastsim_adhesion_area
    split
    next h =>
      constructor
      · positivity
      · rw [div_le_one (by exact_mod_cast h)]
        exact_mod_cast Finset.card_le_card (fastsim_adhesion_subset t)
    next h => norm_num
  · unfold fastrip_adhesion_area
    split
    next h =>
      constructor
      · positivity
      · rw [div_le_one (by exact_mod_cast h)]
        exact_mod_cast Finset.card_le_card (fastrip_adhesion_subset ts)
    next h => norm_num
  · intro h1 h2 h3 hμ hp htot
    have hz := fastsim_stress_zero_creep t h1 h2 h3 hμ hp
    have hcard : fastsim_adhesion_points t = fastsim_total_points t := by
      unfold fastsim_adhesion_points fastsim_total_points
      congr 1
      refine Finset.Subset.antisymm (fastsim_adhesion_subset t) ?_
      intro p hmem
      unfold masked_points at hmem
      rw [Finset.mem_filter] at hmem ⊢
      refine ⟨hmem.1, hmem.2, ?_⟩
      rw [(hz p.1 p.2).1, norm2_zero_pair]
      exact not_lt.mpr (tractionBound_nonneg t hμ hp p.1 p.2)
    unfold fastsim_adhesion_area
    rw [if_pos htot, hcard]
    exact div_self (Nat.cast_pos.mpr htot).ne'
  · intro h1 h2 h3 hμ hp htot hrow
    have hz := fastrip_stress_zero_creep ts h1 h2 h3 hμ hp
    have hcard : fastrip_adhesion_points ts = fastrip_total_points ts := by
      unfold fastrip_adhesion_points fastrip_total_points
      congr 1
      refine Finset.Subset.antisymm (fastrip_adhesion_subset ts) ?_
      intro p hmem
      have hproc := hrow p hmem
      unfold masked_points at hmem
      rw [Finset.mem_filter] at hmem ⊢
      refine ⟨hmem.1, ⟨hmem.2, hproc⟩, ?_⟩
      rw [(hz p.1 p.2).1, norm2_zero_pair]
      exact not_lt.mpr (tractionBound_nonneg ts.toTangentialInput hμ hp p.1 p.2)
    unfold fastrip_adhesion_area
    rw [if_pos htot, hcard]
    exact div_self (Nat.cast_pos.mpr htot).ne'

/-- Closed witness for the amended C6: at the concrete zero-creepage inputs
`tIn0` (FastSim, non-empty mask) and `tsIn0` (FaStrip, every masked row in a
strip) the adhesion-area fraction is exactly 1. -/
theorem C6_adhesion_area_witness :
    fastsim_adhesion_area tIn0 = 1 ∧ fastrip_adhesion_area tsIn0 = 1 := by
  have hmem11 : ((1, 1) : ℕ × ℕ) ∈ masked_points tIn0 := by
    unfold masked_points
    rw [Finset.mem_filter]
    constructor
    · rw [gridPoints, Finset.mem_product]
      constructor <;> · rw [Finset.mem_range]; norm_num [tIn0]
    · norm_num [tIn0, ellipse_mask, linspace]
  have hmem11s : ((1, 1) : ℕ × ℕ) ∈ masked_points tsIn0.toTangentialInput := by
    unfold masked_points
    rw [Finset.mem_filter]
    constructor
    · rw [gridPoints, Finset.mem_product]
      constructor <;> · rw [Finset.mem_range]; norm_num [tsIn0, tIn0]
    · norm_num [tsIn0, tIn0, ellipse_mask, linspace]
  refine ⟨(C6_adhesion_area tIn0 tsIn0).2.2.1 rfl rfl rfl (by norm_num [tIn0])
      (fun j i => by norm_num [tIn0]) (Finset.card_pos.mpr ⟨_, hmem11⟩),
    (C6_adhesion_area tIn0 tsIn0).2.2.2 rfl rfl rfl (by norm_num [tsIn0, tIn0])
      (fun j i => by norm_num [tsIn0, tIn0]) (Finset.card_pos.mpr ⟨_, hmem11s⟩) ?_⟩
  rintro ⟨j, i⟩ hmem
  unfold masked_points at hmem
  rw [Finset.mem_filter, gridPoints, Finset.mem_product, Finset.mem_range,
    Finset.mem_range] at hmem
  obtain ⟨⟨hj, hi⟩, hmask⟩ := hmem
  have hj4 : j < 4 := by simpa [tsIn0, tIn0] using hj
  have hi4 : i < 4 := by simpa [tsIn0, tIn0] using hi
  have hmask' : ellipse_mask tsIn0.a tsIn0.b tsIn0.n j i := hmask
  show row_processed tsIn0 j
  interval_cases j
  · exact absurd hmask' (by interval_cases i <;>
      norm_num [tsIn0, tIn0, ellipse_mask, linspace])
  · exact ⟨0, by norm_num [tsIn0],
      by norm_num [tsIn0, tIn0, row_in_strip, strip_edge, linspace]⟩
  · exact ⟨0, by norm_num [tsIn0],
      by norm_num [tsIn0, tIn0, row_in_strip, strip_edge, linspace]⟩
  · exact absurd hmask' (by interval_cases i <;>
      norm_num [tsIn0, tIn0, ellipse_mask, linspace])

/- ### C8: low-creepage linear-theory blend of FaStrip -/

theorem np_clip_mem (x : ℝ) {lo hi : ℝ} (h : lo ≤ hi) :
    lo ≤ np_clip x lo hi ∧ np_clip x lo hi ≤ hi :=
  ⟨le_min h (le_max_left lo x), min_le_left hi _⟩

/-- C8: when both longitudinal and lateral creepage magnitudes are below the
1e-4 threshold, each returned FaStrip force equals the uncorrected
area-weighted sum multiplied by its clipped correction factor, which lies in
[0.8, 1.2]; when either magnitude is at or above the threshold the raw sums
are returned unchanged. -/
theorem C8_low_creepage_blend (t : StripInput) :
    ((|t.creep.longitudinal| < 1e-4 ∧ |t.creep.lateral| < 1e-4) →
      fastrip_Fx t = fastrip_Fx_raw t * fastrip_correction_x t ∧
      fastrip_Fy t = fastrip_Fy_raw t * fastrip_correction_y t ∧
      0.8 ≤ fastrip_correction_x t ∧ fastrip_correction_x t ≤ 1.2 ∧
      0.8 ≤ fastrip_correction_y t ∧ fastrip_correction_y t ≤ 1.2) ∧
    (¬ (|t.creep.longitudinal| < 1e-4 ∧ |t.creep.lateral| < 1e-4) →
      fastrip_Fx t = fastrip_Fx_raw t ∧ fastrip_Fy t = fastrip_Fy_raw t) := by
  constructor
  · intro h
    have hx := np_clip_mem
      (if 1e-10 < |fastrip_Fx_raw t| then fastrip_Fx_linear t / fastrip_Fx_raw t else 1)
      (by norm_num : (0.8 : ℝ) ≤ 1.2)
    have hy := np_clip_mem
      (if 1e-10 < |fastrip_Fy_raw t| then fastrip_Fy_linear t / fastrip_Fy_raw t else 1)
      (by norm_num : (0.8 : ℝ) ≤ 1.2)
    exact ⟨by rw [fastrip_Fx, if_pos h], by rw [fastrip_Fy, if_pos h],
      hx.1, hx.2, hy.1, hy.2⟩
  · intro h
    exact ⟨by rw [fastrip_Fx, if_neg h], by rw [fastrip_Fy, if_neg h]⟩

/-- Closed witness for C8 at the zero-creepage input `tsIn0` (both creepage
magnitudes below the threshold). -/
theorem C8_low_creepage_blend_witness :
    fastrip_Fx tsIn0 = fastrip_Fx_raw tsIn0 * fastrip_correction_x tsIn0 ∧
    fastrip_Fy tsIn0 = fastrip_Fy_raw tsIn0 * fastrip_correction_y tsIn0 ∧
    0.8 ≤ fastrip_correction_x tsIn0 ∧ fastrip_correction_x tsIn0 ≤ 1.2 ∧
    0.8 ≤ fastrip_correction_y tsIn0 ∧ fastrip_correction_y tsIn0 ≤ 1.2 :=
  (C8_low_creepage_blend tsIn0).1
    ⟨by norm_num [tsIn0, tIn0], by norm_num [tsIn0, tIn0]⟩

/- ### C9: unguarded division by zero for degenerate patches -/

/-- C9: the flexibility-coefficient computation has no guard at all against a
degenerate (zero-semi-axis) patch.  In this real-number embedding division
by zero is the junk value 0, so `L1 = C11 / (4·G·a)` collapses to 0 at
a = 0 even though the numerator C11 is strictly positive — the code divides
a positive numerator by an exactly zero denominator (numpy: inf), with no
clamping anywhere. -/
theorem C9_flexibility_division_by_zero :
    fastsim_L1 1 0 1 = 0 ∧ 0 < kalker_C11 0 1 ∧ (4 : ℝ) * 1 * 0 = 0 := by
  refine ⟨?_, ?_, by norm_num⟩
  · unfold fastsim_L1
    norm_num
  · unfold kalker_C11
    norm_num

/- ### Modified Kik–Piotrowski solver, with numpy NaN semantics -/

/-- numpy `sqrt`: NaN (modelled as `none`) on a negative argument. -/
noncomputable def npSqrt (x : ℝ) : Option ℝ :=
  if x < 0 then none else some (Real.sqrt x)

/-- numpy `power` with a real exponent: NaN (`none`) on a negative base, the
only regime the MKP pressure formula can hit outside the ellipse. -/
noncomputable def npPow (x e : ℝ) : Option ℝ :=
  if x < 0 then none else some (x ^ e)

/-- The clamping assignment `arr[arr < 0] = 0` applied to a possibly-NaN
entry: a NaN compares false with 0, so it is left in place. -/
noncomputable def np_clamp_neg (v : Option ℝ) : Option ℝ :=
  v.map fun x => if x < 0 then 0 else x

/-- The contact-patch record returned by
`ModifiedKikPiotrowski.calculate_contact_patch`; the pressure distribution
is `Option`-valued because numpy square roots and fractional powers of
negative arguments produce NaN. -/
structure MKPContactPatch where
  a : ℝ
  b : ℝ
  area : ℝ
  max_pressure : ℝ
  mean_pressure : ℝ
  pressure_distribution : ℕ → ℕ → Option ℝ
  is_non_elliptical : Prop
  axes_quot : ℝ

/-- Embedding of `ModifiedKikPiotrowski.calculate_contact_patch`.  Below the
semi-axes-quotient limit it follows the base KP formulas (but without the
base solver's pre-square-root clamping of the ellipse term); above the limit
it applies the correction factor to the larger semi-axis, the area, the peak
pressure, and the pressure exponent. -/
noncomputable def mkp_calculate_contact_patch (c : KPConfig) (limit : ℝ)
    (normal_force yaw_angle lateral_displacement : ℝ) : MKPContactPatch :=
  let a0 := kp_a_value c normal_force yaw_angle
  let b0 := kp_b_value c normal_force yaw_angle
  let ratio := axes_quot_value c normal_force yaw_angle
  if limit < ratio then
    let cf := 1.0 - 0.25 * (1.0 - limit / ratio)
    let a1 := if b0 < a0 then a0 * Real.sqrt cf else a0
    let b1 := if b0 < a0 then b0 else b0 * Real.sqrt cf
    let area := Real.pi * a1 * b1 * cf
    let maxp := 1.5 * normal_force / area * (1.0 + 0.1 * (ratio - limit))
    { a := a1, b := b1, area := area, max_pressure := maxp,
      mean_pressure := normal_force / area,
      pressure_distribution := fun j i =>
        let x := linspace (-a1) a1 c.discretization i
        let y := linspace (-b1) b1 c.discretization j
        let r := Real.sqrt ((x / a1) ^ 2 + (y / b1) ^ 2)
        np_clamp_neg ((npPow (1.0 - r ^ 2) (0.5 + 0.1 * (ratio - limit))).map
          fun v => maxp * v),
      is_non_elliptical := limit < ratio, axes_quot := ratio }
  else
    let area := Real.pi * a0 * b0
    let maxp := 1.5 * normal_force / area
    { a := a0, b := b0, area := area, max_pressure := maxp,
      mean_pressure := normal_force / area,
      pressure_distribution := fun j i =>
        np_clamp_neg ((npSqrt (ellipse_term a0 b0 c.discretization j i)).map
          fun v => maxp * v),
      is_non_elliptical := limit < ratio, axes_quot := ratio }

/- ### C2: agreement of MKP with KP below the semi-axes-quotient limit -/

/-- C2: when the semi-axes quotient does not exceed the configured limit, the
MKP solver returns exactly the KP values of a, b, area, max pressure and
mean pressure, and the two pressure distributions agree at every grid point
on or inside the ellipse.  At grid points strictly outside the ellipse,
however, MKP (which does not clamp the ellipse term before the square root)
yields NaN while KP yields 0, so the distributions are NOT equal there. -/
theorem C2_mkp_matches_kp_below_limit (c : KPConfig) (limit F yaw lat : ℝ)
    (hr : axes_quot_value c F yaw ≤ limit) :
    (mkp_calculate_contact_patch c limit F yaw lat).a =
      (kp_calculate_contact_patch c F yaw lat).a ∧
    (mkp_calculate_contact_patch c limit F yaw lat).b =
      (kp_calculate_contact_patch c F yaw lat).b ∧
    (mkp_calculate_contact_patch c limit F yaw lat).area =
      (kp_calculate_contact_patch c F yaw lat).area ∧
    (mkp_calculate_contact_patch c limit F yaw lat).max_pressure =
      (kp_calculate_contact_patch c F yaw lat).max_pressure ∧
    (mkp_calculate_contact_patch c limit F yaw lat).mean_pressure =
      (kp_calculate_contact_patch c F yaw lat).mean_pressure ∧
    (∀ j i,
      0 ≤ ellipse_term (kp_a_value c F yaw) (kp_b_value c F yaw) c.discretization j i →
      (mkp_calculate_contact_patch c limit F yaw lat).pressure_distribution j i =
        some ((kp_calculate_contact_patch c F yaw lat).pressure_distribution j i)) ∧
    (∀ j i,
      ellipse_term (kp_a_value c F yaw) (kp_b_value c F yaw) c.discretization j i < 0 →
      (mkp_calculate_contact_patch c limit F yaw lat).pressure_distribution j i = none ∧
      (kp_calculate_contact_patch c F yaw lat).pressure_distribution j i = 0) := by
  have hbr : ¬ limit < axes_quot_value c F yaw := not_lt.mpr hr
  simp only [mkp_calculate_contact_patch, kp_calculate_contact_patch, if_neg hbr]
  refine ⟨by trivial, by trivial, by trivial, by trivial, by trivial, ?_, ?_⟩
  · intro j i h
    have hnot : ¬ ellipse_term (kp_a_value c F yaw) (kp_b_value c F yaw)
        c.discretization j i < 0 := not_lt.mpr h
    simp only [npSqrt, if_neg hnot, Option.map_some', np_clamp_neg, kp_pressure]
  · intro j i h
    constructor
    · simp only [npSqrt, if_pos h, Option.map_none', np_clamp_neg]
    · simp only [kp_pressure, if_pos h, Real.sqrt_zero, mul_zero, lt_self_iff_false,
        if_false]

/-- Concrete KP configuration with unit radii, equivalent modulus 1 and
discretization 2; at zero yaw its contact patch has a = b, so the semi-axes
quotient is 1 and the MKP solver takes its elliptical branch. -/
noncomputable def cfgUnit : KPConfig :=
  { wheel_radius := 1, rail_radius := 1, wheel_youngs_modulus := 2,
    rail_youngs_modulus := 2, wheel_poisson := 0, rail_poisson := 0,
    discretization := 2 }

theorem cfgUnit_E : cfgUnit.E = 1 := by
  simp [cfgUnit, KPConfig.E, equivalent_youngs_modulus]
  norm_num

theorem cfgUnit_curv :
    calculate_curvatures cfgUnit.wheel_radius cfgUnit.rail_radius 0 = (1, 1) := by
  show calculate_curvatures 1 1 0 = (1, 1)
  rw [calculate_curvatures_small 1 1 0 (by norm_num)]
  norm_num

theorem cfgUnit_a : kp_a_value cfgUnit 1 0 = ((3 : ℝ)/8) ^ ((1:ℝ)/3) := by
  simp only [kp_a_value, cfgUnit_curv, cfgUnit_E]
  norm_num

theorem cfgUnit_a_pos : 0 < kp_a_value cfgUnit 1 0 := by
  rw [cfgUnit_a]
  exact Real.rpow_pos_of_pos (by norm_num) _

theorem cfgUnit_b : kp_b_value cfgUnit 1 0 = kp_a_value cfgUnit 1 0 := by
  simp only [kp_b_value, cfgUnit_curv]
  norm_num [Real.sqrt_one]

theorem cfgUnit_quot : axes_quot_value cfgUnit 1 0 = 1 := by
  unfold axes_quot_value
  rw [cfgUnit_b, div_self cfgUnit_a_pos.ne', max_self]

/-- At the corner grid point (1, 1) of the 2×2 grid the ellipse term is −1:
the point lies strictly outside the ellipse. -/
theorem cfgUnit_corner_eterm :
    ellipse_term (kp_a_value cfgUnit 1 0) (kp_b_value cfgUnit 1 0)
      cfgUnit.discretization 1 1 < 0 := by
  unfold ellipse_term
  have hd : cfgUnit.discretization = 2 := rfl
  have hx : linspace (-(kp_a_value cfgUnit 1 0)) (kp_a_value cfgUnit 1 0) 2 1 =
      kp_a_value cfgUnit 1 0 := by
    unfold linspace
    push_cast
    ring
  rw [hd, cfgUnit_b, hx, div_self cfgUnit_a_pos.ne']
  norm_num

/-- Closed witness for C2 at `cfgUnit` with limit 5 and normal force 1: the
semi-axes agree, and at the outside corner point MKP's pressure is NaN while
KP's is 0 (the divergence the missing clamp causes). -/
theorem C2_mkp_matches_kp_below_limit_witness :
    (mkp_calculate_contact_patch cfgUnit 5 1 0 0).a =
      (kp_calculate_contact_patch cfgUnit 1 0 0).a ∧
    (mkp_calculate_contact_patch cfgUnit 5 1 0 0).pressure_distribution 1 1 = none ∧
    (kp_calculate_contact_patch cfgUnit 1 0 0).pressure_distribution 1 1 = 0 := by
  have hr : axes_quot_value cfgUnit 1 0 ≤ 5 := by
    rw [cfgUnit_quot]; norm_num
  have h := C2_mkp_matches_kp_below_limit cfgUnit 5 1 0 0 hr
  exact ⟨h.1, (h.2.2.2.2.2.2 1 1 cfgUnit_corner_eterm).1,
    (h.2.2.2.2.2.2 1 1 cfgUnit_corner_eterm).2⟩

/- ### C4: sign and support of the pressure distributions -/

/-- C4: the base KP pressure distribution is non-negative at every grid point
and exactly zero at every grid point strictly outside the ellipse (KP clamps
the ellipse term before taking the square root, so no NaN can arise); but
the MKP pressure distribution is NaN (modelled `none`), not 0, at a concrete
grid point outside the ellipse — the claim fails for the extended solver. -/
theorem C4_pressure_field :
    (∀ (c : KPConfig) (F yaw lat : ℝ) (j i : ℕ),
      0 ≤ (kp_calculate_contact_patch c F yaw lat).pressure_distribution j i) ∧
    (∀ (c : KPConfig) (F yaw lat : ℝ) (j i : ℕ),
      ellipse_term (kp_a_value c F yaw) (kp_b_value c F yaw) c.discretization j i < 0 →
      (kp_calculate_contact_patch c F yaw lat).pressure_distribution j i = 0) ∧
    (mkp_calculate_contact_patch cfgUnit 5 1 0 0).pressure_distribution 1 1 = none := by
  have clamp_nonneg : ∀ p : ℝ, (0:ℝ) ≤ if p < 0 then 0 else p := by
    intro p
    split
    next => exact le_rfl
    next h => exact not_lt.mp h
  refine ⟨?_, ?_, ?_⟩
  · intro c F yaw lat j i
    simp only [kp_calculate_contact_patch, kp_pressure]
    exact clamp_nonneg _
  · intro c F yaw lat j i h
    simp only [kp_calculate_contact_patch, kp_pressure, if_pos h, Real.sqrt_zero,
      mul_zero, lt_self_iff_false, if_false]
  · have hbr : ¬ (5:ℝ) < axes_quot_value cfgUnit 1 0 := by
      rw [cfgUnit_quot]; norm_num
    simp only [mkp_calculate_contact_patch, if_neg hbr, npSqrt,
      if_pos cfgUnit_corner_eterm, Option.map_none', np_clamp_neg]

/-- Closed witness for C4: at `cfgUnit` the base KP pressure is non-negative
at the centre point and zero at the outside corner point. -/
theorem C4_pressure_field_witness :
    0 ≤ (kp_calculate_contact_patch cfgUnit 1 0 0).pressure_distribution 0 0 ∧
    (kp_calculate_contact_patch cfgUnit 1 0 0).pressure_distribution 1 1 = 0 :=
  ⟨C4_pressure_field.1 cfgUnit 1 0 0 0 0,
   C4_pressure_field.2.1 cfgUnit 1 0 0 1 1 cfgUnit_corner_eterm⟩

end KPModel
